import Mathlib

/-!
Shallow embedding of the roi-uncc-mcp co-simulation example federates.

Sources embedded (scalar doubles are modelled as exact rationals, complex
doubles as pairs of rationals with explicit component arithmetic):
- src/examples/lc-tank/cpp/Capacitor.cpp  (explicit-Euler capacitor federate)
- src/examples/lc-tank/cpp/Inductor.cpp   (explicit-Euler inductor federate)
- src/examples/pf-cosim/gpk/gpk-left-fed.cpp   (single-phase solver adapter)
- src/examples/2bus-13bus/gpk-left-fed.cpp     (three-phase solver adapter)
- src/examples/simple-cosim/gridpack_federate.cpp (fixed 10-step demo federate)

The HELICS message substrate is external: its successive granted times and
subscription values are supplied to each loop model as an oracle list/function.
The GridPACK power-flow solver is external (its source is not part of this
repository); it is modelled as an opaque function argument, following the
spec's interface `execute(injected_power) -> converged_voltage` with the
by-reference voltage passed as an extra argument.
-/

namespace Cosim

/-- A complex value, as exchanged on the federation boundary:
a pair of exact rational components standing for `std::complex<double>`. -/
structure Cx where
  re : ℚ
  im : ℚ
deriving DecidableEq, Repr

/-- Complex multiplication, componentwise over the pair. -/
def Cx.mul (x y : Cx) : Cx :=
  ⟨x.re * y.re - x.im * y.im, x.re * y.im + x.im * y.re⟩

/-- Multiplication of a complex value by a real scalar
(as in `voltage*69000.0`): both components are scaled. -/
def Cx.scale (a : ℚ) (x : Cx) : Cx :=
  ⟨a * x.re, a * x.im⟩

/-- Division of a complex value by a real scalar
(as in `sa_id.getValue<std::complex<double>>()/1000000.0`). -/
def Cx.divScalar (x : Cx) (a : ℚ) : Cx :=
  ⟨x.re / a, x.im / a⟩

/-! ## LC-tank federates (Capacitor.cpp, Inductor.cpp) -/

/-- The per-step state update expression of Capacitor.cpp line 63,
`delta_v = (-1.0 / c_value) * inductor_current * period`, added to the
previous voltage (line 67), abstracted on the time factor `dt`; the
simulation loop instantiates `dt` with the nominal `period`. -/
def capAdvance (prev peer dt c : ℚ) : ℚ :=
  prev + (-1 / c) * peer * dt

/-- The per-step state update expression of Inductor.cpp line 62,
`delta_i = (1.0 / l_value) * capacitor_voltage * period`, added to the
previous current (line 66), abstracted on the time factor `dt`; the
simulation loop instantiates `dt` with the nominal `period`. -/
def indAdvance (prev peer dt l : ℚ) : ℚ :=
  prev + (1 / l) * peer * dt

/-- One record of the capacitor simulation loop (Capacitor.cpp lines 57-71):
the granted time received from the substrate, the subscribed inductor
current read this iteration, and the voltage before and after the update. -/
structure CapStep where
  granted : ℚ
  input : ℚ
  vBefore : ℚ
  vAfter : ℚ
deriving DecidableEq, Repr

/-- The capacitor federate loop `while (grantedtime < total_interval)`
of Capacitor.cpp lines 57-71, returning the final `(grantedtime,
voltage.back())` pair.  The substrate oracle is a list of
`(granted time, subscribed inductor current)` responses, consumed one
per iteration; the loop body updates the voltage by
`(-1.0/c_value) * inductor_current * period` (lines 62-67). -/
def capLoop (c period horizon : ℚ) : List (ℚ × ℚ) → ℚ → ℚ → ℚ × ℚ
  | [], t, v => (t, v)
  | (g, i) :: rest, t, v =>
    if t < horizon then
      capLoop c period horizon rest g (v + (-1 / c) * i * period)
    else (t, v)

/-- The instrumented capacitor loop: same iteration structure as `capLoop`,
but returning the list of per-iteration records actually executed. -/
def capRun (c period horizon : ℚ) : List (ℚ × ℚ) → ℚ → ℚ → List CapStep
  | [], _, _ => []
  | (g, i) :: rest, t, v =>
    if t < horizon then
      ⟨g, i, v, v + (-1 / c) * i * period⟩ ::
        capRun c period horizon rest g (v + (-1 / c) * i * period)
    else []

/-- One record of the inductor simulation loop (Inductor.cpp lines 56-70). -/
structure IndStep where
  granted : ℚ
  input : ℚ
  iBefore : ℚ
  iAfter : ℚ
deriving DecidableEq, Repr

/-- The inductor federate loop of Inductor.cpp lines 56-70, returning the
final `(grantedtime, current.back())` pair; the oracle list carries
`(granted time, subscribed capacitor voltage)` responses, and the body
updates the current by `(1.0/l_value) * capacitor_voltage * period`. -/
def indLoop (l period horizon : ℚ) : List (ℚ × ℚ) → ℚ → ℚ → ℚ × ℚ
  | [], t, i => (t, i)
  | (g, pv) :: rest, t, i =>
    if t < horizon then
      indLoop l period horizon rest g (i + (1 / l) * pv * period)
    else (t, i)

/-- The instrumented inductor loop, mirroring `indLoop`. -/
def indRun (l period horizon : ℚ) : List (ℚ × ℚ) → ℚ → ℚ → List IndStep
  | [], _, _ => []
  | (g, pv) :: rest, t, i =>
    if t < horizon then
      ⟨g, pv, i, i + (1 / l) * pv * period⟩ ::
        indRun l period horizon rest g (i + (1 / l) * pv * period)
    else []

/-- Modelled from the spec: the trajectory prescribed by spec section 8,
summing `f(input_i) * (t_i - t_(i-1))` with the actual elapsed time
between granted times as the integration step, in place of the nominal
period used by Capacitor.cpp line 63.  Used only to compare the code's
trajectory against the spec's prescription. -/
def capElapsedFinal (c horizon : ℚ) : List (ℚ × ℚ) → ℚ → ℚ → ℚ × ℚ
  | [], t, v => (t, v)
  | (g, i) :: rest, t, v =>
    if t < horizon then
      capElapsedFinal c horizon rest g (v + (-1 / c) * i * (g - t))
    else (t, v)

/-- The substrate contract threaded along an oracle list: every granted
time is no earlier than the current time and no later than the requested
time `current + period` (spec sections 3 and 4.1). -/
def grantsChained (period : ℚ) : ℚ → List (ℚ × ℚ) → Prop
  | _, [] => True
  | t, (g, _) :: rest => t ≤ g ∧ g ≤ t + period ∧ grantsChained period g rest

/-- C1 counterexample: under a legitimate granted-time sequence in which
the substrate grants only half of the requested step (granted time 1/2
against nominal period 1), the capacitor loop's trajectory differs from
the spec's elapsed-time trajectory: line 63 of Capacitor.cpp multiplies by
the nominal `period`, not by `granted - previous_time`. -/
theorem capacitor_uses_nominal_period_cex :
    grantsChained 1 0 [(1/2, 1)] ∧
    (capLoop 1 1 10 [(1/2, 1)] 0 0).2 ≠ (capElapsedFinal 1 10 [(1/2, 1)] 0 0).2 := by
  constructor
  · norm_num [grantsChained]
  · norm_num [capLoop, capElapsedFinal]

/-- C1 amended: in every step of the capacitor simulation loop the state
increment uses the nominal `period` as dt, so the final trajectory value
equals the direct sum of `(-1/C) * input_i * period` over the executed
iterations (and coincides with the elapsed-time sum only when every grant
advances time by exactly one period). -/
theorem capacitor_trajectory_is_nominal_period_sum
    (c period horizon t v : ℚ) (steps : List (ℚ × ℚ)) :
    (capLoop c period horizon steps t v).2 =
      v + ((capRun c period horizon steps t v).map
        (fun s => (-1 / c) * s.input * period)).sum := by
  induction steps generalizing t v with
  | nil => simp [capLoop, capRun]
  | cons p rest ih =>
    obtain ⟨g, i⟩ := p
    by_cases h : t < horizon
    · simp only [capLoop, capRun, if_pos h, List.map_cons, List.sum_cons, ih]
      ring
    · simp [capLoop, capRun, h]

/-- C2: every iteration executed by the capacitor loop updates the state by
exactly `new = prev + (-1/C) * peer_input * dt`, and every iteration of the
inductor loop by exactly `new = prev + (1/L) * peer_input * dt`, where `dt`
is the time factor the loop passes to the update (the nominal period). -/
theorem advancer_euler_step_formula :
    (∀ (c period horizon t v : ℚ) (steps : List (ℚ × ℚ)),
      ∀ s ∈ capRun c period horizon steps t v,
        s.vAfter = capAdvance s.vBefore s.input period c) ∧
    (∀ (l period horizon t i : ℚ) (steps : List (ℚ × ℚ)),
      ∀ s ∈ indRun l period horizon steps t i,
        s.iAfter = indAdvance s.iBefore s.input period l) := by
  constructor
  · intro c period horizon t v steps
    induction steps generalizing t v with
    | nil => simp [capRun]
    | cons p rest ih =>
      obtain ⟨g, i⟩ := p
      by_cases h : t < horizon
      · simp only [capRun, if_pos h, List.forall_mem_cons]
        exact ⟨by simp [capAdvance], ih g (v + (-1 / c) * i * period)⟩
      · simp [capRun, h]
  · intro l period horizon t i steps
    induction steps generalizing t i with
    | nil => simp [indRun]
    | cons p rest ih =>
      obtain ⟨g, pv⟩ := p
      by_cases h : t < horizon
      · simp only [indRun, if_pos h, List.forall_mem_cons]
        exact ⟨by simp [indAdvance], ih g (i + (1 / l) * pv * period)⟩
      · simp [indRun, h]

/-- C2 witness: the Euler-step formula instantiated on concrete one-step
runs of both federate loops. -/
theorem advancer_euler_step_formula_witness :
    (⟨1, 2, 0, -1⟩ : CapStep).vAfter = capAdvance 0 2 (1/2) 1 ∧
    (⟨1, 3, 1, 5/2⟩ : IndStep).iAfter = indAdvance 1 3 (1/2) 1 :=
  ⟨advancer_euler_step_formula.1 1 (1/2) 10 0 0 [(1, 2)] ⟨1, 2, 0, -1⟩
      (by norm_num [capRun]),
   advancer_euler_step_formula.2 1 (1/2) 10 0 1 [(1, 3)] ⟨1, 3, 1, 5/2⟩
      (by norm_num [indRun])⟩

/-- C3: first step of the LC-tank pair with `C = L = 0.159`,
`period = 100e-6`, capacitor starting at voltage 0 and reading inductor
current 1.0, inductor starting at current 1.0 and reading capacitor
voltage 0.0: the capacitor state equals the reference computation
`0 + (-1/0.159) * 1.0 * 100e-6` exactly (hence within tolerance 1e-9),
and the inductor state is still 1.0. -/
theorem lc_tank_first_step :
    (capLoop (159/1000) (1/10000) 10 [(1/10000, 1)] 0 0).2
        = 0 + (-1 / (159/1000)) * 1 * (1/10000) ∧
    |(capLoop (159/1000) (1/10000) 10 [(1/10000, 1)] 0 0).2
        - (0 + (-1 / (159/1000)) * 1 * (1/10000))| ≤ 1 / 1000000000 ∧
    (indLoop (159/1000) (1/10000) 10 [(1/10000, 0)] 0 1).2 = 1 := by
  refine ⟨by norm_num [capLoop], by norm_num [capLoop], by norm_num [indLoop]⟩

/-- C7 counterexample: under the substrate contract (each grant between the
current time and the requested `current + period`), the capacitor loop can
terminate normally, through its loop condition, with a final granted time
strictly greater than the horizon: with horizon 2 and period 3 a single
grant of 3 is accepted and becomes the final time. -/
theorem final_time_can_exceed_horizon_cex :
    grantsChained 3 0 [(3, 0)] ∧
    2 ≤ (capLoop 1 3 2 [(3, 0)] 0 0).1 ∧
    ¬((capLoop 1 3 2 [(3, 0)] 0 0).1 ≤ 2) := by
  refine ⟨by norm_num [grantsChained], ?_, ?_⟩ <;> norm_num [capLoop]

/-- C7 amended: when every granted time lies between the current time and
the requested `current + period`, the simulation clock is monotonically
non-decreasing (the visited granted times form a chain above the start
time), and on termination the final time stays strictly below
`horizon + period` (it may overshoot the horizon by less than one period,
but no further). -/
theorem clock_monotone_and_bounded (c period horizon t v : ℚ)
    (steps : List (ℚ × ℚ)) (hg : grantsChained period t steps) :
    List.Chain (· ≤ ·) t
        ((capRun c period horizon steps t v).map (fun s => s.granted)) ∧
    (t < horizon + period →
      (capLoop c period horizon steps t v).1 < horizon + period) := by
  induction steps generalizing t v with
  | nil =>
      exact ⟨List.Chain.nil, fun ht => by simpa [capLoop] using ht⟩
  | cons p rest ih =>
      obtain ⟨g, i⟩ := p
      obtain ⟨h1, h2, h3⟩ := hg
      by_cases h : t < horizon
      · have ihg := ih g (v + (-1 / c) * i * period) h3
        constructor
        · simp only [capRun, if_pos h, List.map_cons]
          exact List.Chain.cons h1 ihg.1
        · intro _
          simp only [capLoop, if_pos h]
          exact ihg.2 (lt_of_le_of_lt h2 (by linarith))
      · exact ⟨by simp [capRun, h], fun ht => by simpa [capLoop, h] using ht⟩

/-- C7 witness: the monotonicity and bound instantiated on a concrete
one-step run with a valid grant. -/
theorem clock_monotone_and_bounded_witness :
    List.Chain (· ≤ ·) (0 : ℚ)
        ((capRun 1 1 10 [(1, 0)] 0 0).map (fun s => s.granted)) ∧
    ((0 : ℚ) < 10 + 1 → (capLoop 1 1 10 [(1, 0)] 0 0).1 < 10 + 1) :=
  clock_monotone_and_bounded 1 1 10 0 0 [(1, 0)] (by norm_num [grantsChained])

/-- C8: a zero-progress step of either integration update leaves the state
exactly unchanged; the update is a total function, so this case is an
ordinary step, not an error. -/
theorem zero_dt_step_is_noop (prev peer c l : ℚ) :
    capAdvance prev peer 0 c = prev ∧ indAdvance prev peer 0 l = prev := by
  constructor <;> simp [capAdvance, indAdvance]

/-! ## Substrate-boundary event traces (read-after-grant ordering) -/

/-- Substrate-boundary events of one capacitor-loop iteration:
the time grant returned by `requestTime`, the subscription read
`Il_id.getDouble()`, and the publication `Vc_id.publish(...)`. -/
inductive CapEv where
  | grant (t : ℚ)
  | readIl (i : ℚ)
  | pubVc (v : ℚ)
deriving DecidableEq, Repr

/-- The sequence of substrate-boundary events performed by the capacitor
simulation loop (Capacitor.cpp lines 57-71), in program order:
each iteration requests and receives a grant, then reads the inductor
current, then publishes the freshly computed voltage. -/
def capTrace (c period horizon : ℚ) : List (ℚ × ℚ) → ℚ → ℚ → List CapEv
  | [], _, _ => []
  | (g, i) :: rest, t, v =>
    if t < horizon then
      CapEv.grant g :: CapEv.readIl i ::
        CapEv.pubVc (v + (-1 / c) * i * period) ::
        capTrace c period horizon rest g (v + (-1 / c) * i * period)
    else []

/-- Traces that decompose into iteration blocks of the form
grant, then subscription read, then publish: every read happens after its
iteration's grant and before its iteration's publish. -/
inductive CapBlocks : List CapEv → Prop
  | nil : CapBlocks []
  | cons (g i p : ℚ) (rest : List CapEv) : CapBlocks rest →
      CapBlocks (CapEv.grant g :: CapEv.readIl i :: CapEv.pubVc p :: rest)

/-- Substrate-boundary events of the simple-cosim federate loop
(gridpack_federate.cpp lines 36-55): the `requestTime` exchange, the
subscription read `load_current_sub.getComplex()`, and the three
voltage publications. -/
inductive GpfEv where
  | granted (t : ℚ)
  | readCur (s : Cx)
  | pub (v : Cx)
deriving DecidableEq, Repr

/-- The event sequence of the simple-cosim loop body, iterated from step
`t` for `n` remaining iterations: grant, read, publish A, publish B,
publish C, in program order (gridpack_federate.cpp lines 36-55). -/
def gpfTraceAux (inputs : ℕ → Cx) (grants : ℕ → ℚ) : ℕ → ℕ → List GpfEv
  | _, 0 => []
  | t, n + 1 =>
    GpfEv.granted (grants t) :: GpfEv.readCur (inputs t) ::
      GpfEv.pub (Cx.scale (11/10) (inputs t)) ::
      GpfEv.pub (Cx.scale (6/5) (inputs t)) ::
      GpfEv.pub (Cx.scale (13/10) (inputs t)) ::
      gpfTraceAux inputs grants (t + 1) n

/-- The full event trace of the simple-cosim federate: ten iterations
starting at step 0. -/
def gpfTrace (inputs : ℕ → Cx) (grants : ℕ → ℚ) : List GpfEv :=
  gpfTraceAux inputs grants 0 10

/-- Traces decomposing into blocks of grant, read, then the three
publications, in that order. -/
inductive GpfBlocks : List GpfEv → Prop
  | nil : GpfBlocks []
  | cons (g : ℚ) (s a b c : Cx) (rest : List GpfEv) : GpfBlocks rest →
      GpfBlocks (GpfEv.granted g :: GpfEv.readCur s :: GpfEv.pub a ::
        GpfEv.pub b :: GpfEv.pub c :: rest)

/-- C6: the substrate-event traces of the capacitor loop and of the
simple-cosim loop always decompose into per-iteration blocks in which the
subscription read comes strictly after the iteration's time grant and
strictly before any of the iteration's publications. -/
theorem reads_after_grant_before_publish :
    (∀ (c period horizon t v : ℚ) (steps : List (ℚ × ℚ)),
      CapBlocks (capTrace c period horizon steps t v)) ∧
    (∀ (inputs : ℕ → Cx) (grants : ℕ → ℚ),
      GpfBlocks (gpfTrace inputs grants)) := by
  constructor
  · intro c period horizon t v steps
    induction steps generalizing t v with
    | nil => exact CapBlocks.nil
    | cons p rest ih =>
      obtain ⟨g, i⟩ := p
      by_cases h : t < horizon
      · simpa [capTrace, h] using
          CapBlocks.cons g i (v + (-1 / c) * i * period) _
            (ih g (v + (-1 / c) * i * period))
      · simp [capTrace, h]
        exact CapBlocks.nil
  · intro inputs grants
    have aux : ∀ n t, GpfBlocks (gpfTraceAux inputs grants t n) := by
      intro n
      induction n with
      | zero => intro t; exact GpfBlocks.nil
      | succ n ih =>
          intro t
          exact GpfBlocks.cons (grants t) (inputs t) _ _ _ _ (ih (t + 1))
    exact aux 10 0

/-! ## Single-phase solver adapter (pf-cosim/gpk/gpk-left-fed.cpp) -/

/-- One record of the single-phase solver-adapter loop (gpk-left-fed.cpp
lines 66-83): the raw subscribed complex power, the normalized value handed
to the external solver, the solver's returned voltage, and the published
value.  The GridPACK solver is external and opaque; following the spec's
interface it is a function of the previous voltage (the by-reference
argument) and the normalized injection. -/
structure GpkStep where
  raw : Cx
  solverIn : Cx
  solverOut : Cx
  published : Cx
deriving DecidableEq, Repr

/-- The single-phase solver-adapter loop of pf-cosim/gpk/gpk-left-fed.cpp
lines 66-83: each executed iteration divides the subscribed power by the
fixed scale 1000000.0 (line 71), calls the solver (line 74), and publishes
the solved voltage times the fixed base 69000.0 (line 82). The substrate
oracle lists `(granted time, raw subscribed power)` responses. -/
def gpkRun (solver : Cx → Cx → Cx) (horizon : ℚ) :
    List (ℚ × Cx) → ℚ → Cx → List GpkStep
  | [], _, _ => []
  | (g, raw) :: rest, t, v =>
    if t < horizon then
      ⟨raw, Cx.divScalar raw 1000000, solver v (Cx.divScalar raw 1000000),
        Cx.scale 69000 (solver v (Cx.divScalar raw 1000000))⟩ ::
        gpkRun solver horizon rest g (solver v (Cx.divScalar raw 1000000))
    else []

/-- C4: in every executed step of the single-phase solver adapter, the
value handed to the external solver is the raw subscribed power divided by
the fixed scale factor 1000000, and the published value is the solver's
returned voltage multiplied by the fixed base voltage 69000; in particular
a raw injection of 5000000+0j reaches the solver as 5+0j, and a solver
result of 1.02+0j is published as 1.02 * 69000 = 70380 exactly. -/
theorem solver_adapter_scaling :
    (∀ (solver : Cx → Cx → Cx) (horizon t : ℚ) (v : Cx)
        (steps : List (ℚ × Cx)),
      ∀ s ∈ gpkRun solver horizon steps t v,
        s.solverIn = Cx.divScalar s.raw 1000000 ∧
        s.published = Cx.scale 69000 s.solverOut) ∧
    gpkRun (fun _ _ => ⟨51/50, 0⟩) 10 [(1, ⟨5000000, 0⟩)] 0 ⟨1, 0⟩ =
      [⟨⟨5000000, 0⟩, ⟨5, 0⟩, ⟨51/50, 0⟩, ⟨70380, 0⟩⟩] := by
  constructor
  · intro solver horizon t v steps
    induction steps generalizing t v with
    | nil => simp [gpkRun]
    | cons p rest ih =>
      obtain ⟨g, raw⟩ := p
      by_cases h : t < horizon
      · simp only [gpkRun, if_pos h, List.forall_mem_cons]
        exact ⟨by simp, ih g (solver v (Cx.divScalar raw 1000000))⟩
      · simp [gpkRun, h]
  · norm_num [gpkRun, Cx.divScalar, Cx.scale]

/-- C4 witness: the scaling law instantiated on the spec's concrete
single-phase scenario. -/
theorem solver_adapter_scaling_witness :
    (⟨⟨5000000, 0⟩, ⟨5, 0⟩, ⟨51/50, 0⟩, ⟨70380, 0⟩⟩ : GpkStep).solverIn =
      Cx.divScalar (⟨⟨5000000, 0⟩, ⟨5, 0⟩, ⟨51/50, 0⟩, ⟨70380, 0⟩⟩ :
        GpkStep).raw 1000000 ∧
    (⟨⟨5000000, 0⟩, ⟨5, 0⟩, ⟨51/50, 0⟩, ⟨70380, 0⟩⟩ : GpkStep).published =
      Cx.scale 69000 (⟨⟨5000000, 0⟩, ⟨5, 0⟩, ⟨51/50, 0⟩, ⟨70380, 0⟩⟩ :
        GpkStep).solverOut :=
  solver_adapter_scaling.1 (fun _ _ => ⟨51/50, 0⟩) 10 0 ⟨1, 0⟩
    [(1, ⟨5000000, 0⟩)] _ (by norm_num [gpkRun, Cx.divScalar, Cx.scale])

/-! ## Three-phase solver adapter (2bus-13bus/gpk-left-fed.cpp) -/

/-- The fixed rotation operator of 2bus-13bus/gpk-left-fed.cpp line 74,
`std::complex<double>(-0.5, -0.866025)`. -/
def r120 : Cx := ⟨-1/2, -866025/1000000⟩

/-- One record of the three-phase solver-adapter loop (2bus-13bus/
gpk-left-fed.cpp lines 84-111): per phase, the normalized injection, the
voltage returned by that phase's solver call, and the published value. -/
structure PhaseStep where
  sA : Cx
  sB : Cx
  sC : Cx
  solvedA : Cx
  solvedB : Cx
  solvedC : Cx
  pubA : Cx
  pubB : Cx
  pubC : Cx
deriving DecidableEq, Repr

/-- The three-phase solver-adapter loop of 2bus-13bus/gpk-left-fed.cpp
lines 84-111: each executed iteration divides the three subscribed powers
by the fixed scale 100000000.0 (lines 89-91), solves each phase with its
own solver call (lines 94-96), rotates phase B by r120 and phase C by
r120 twice (lines 99-100), and publishes each voltage times the base
2400.0 (lines 108-110).  The three external solver instances are opaque
function arguments; the rotated values are carried into the next
iteration as the by-reference voltage arguments, as in the source. -/
def run2bus (solA solB solC : Cx → Cx → Cx) (horizon : ℚ) :
    List (ℚ × Cx × Cx × Cx) → ℚ → Cx → Cx → Cx → List PhaseStep
  | [], _, _, _, _ => []
  | (g, ra, rb, rc) :: rest, t, va, vb, vc =>
    if t < horizon then
      ⟨Cx.divScalar ra 100000000, Cx.divScalar rb 100000000,
        Cx.divScalar rc 100000000,
        solA va (Cx.divScalar ra 100000000),
        solB vb (Cx.divScalar rb 100000000),
        solC vc (Cx.divScalar rc 100000000),
        Cx.scale 2400 (solA va (Cx.divScalar ra 100000000)),
        Cx.scale 2400 (Cx.mul (solB vb (Cx.divScalar rb 100000000)) r120),
        Cx.scale 2400 (Cx.mul (Cx.mul (solC vc (Cx.divScalar rc 100000000))
          r120) r120)⟩ ::
        run2bus solA solB solC horizon rest g
          (solA va (Cx.divScalar ra 100000000))
          (Cx.mul (solB vb (Cx.divScalar rb 100000000)) r120)
          (Cx.mul (Cx.mul (solC vc (Cx.divScalar rc 100000000)) r120) r120)
    else []

/-- C5 counterexample: the published phase-B voltage is not derived from
phase A's solved value.  With stub solvers returning 1+0j for phase A and
2+0j for phase B, the published phase-B value differs from
`r120` applied to phase A's solved value times the base. -/
theorem phase_rotation_not_from_phaseA_cex :
    (run2bus (fun _ _ => ⟨1, 0⟩) (fun _ _ => ⟨2, 0⟩) (fun _ _ => ⟨3, 0⟩) 10
        [(1, ⟨0, 0⟩, ⟨0, 0⟩, ⟨0, 0⟩)] 0 ⟨1, 0⟩ ⟨1, 0⟩ ⟨1, 0⟩).map
      (fun s => s.pubB) ≠
    (run2bus (fun _ _ => ⟨1, 0⟩) (fun _ _ => ⟨2, 0⟩) (fun _ _ => ⟨3, 0⟩) 10
        [(1, ⟨0, 0⟩, ⟨0, 0⟩, ⟨0, 0⟩)] 0 ⟨1, 0⟩ ⟨1, 0⟩ ⟨1, 0⟩).map
      (fun s => Cx.scale 2400 (Cx.mul s.solvedA r120)) := by
  norm_num [run2bus, Cx.mul, Cx.scale, Cx.divScalar, r120]

/-- C5 amended: in every executed step of the three-phase adapter, the
published phase-B voltage is the base 2400 times r120 applied to phase B's
own solved value, and the published phase-C voltage is the base times r120
applied twice to phase C's own solved value (phase A is published
unrotated); the rotation is not applied to phase A's solved value. -/
theorem phase_rotation_applies_to_own_phase :
    ∀ (solA solB solC : Cx → Cx → Cx) (horizon t : ℚ) (va vb vc : Cx)
      (steps : List (ℚ × Cx × Cx × Cx)),
      ∀ s ∈ run2bus solA solB solC horizon steps t va vb vc,
        s.pubA = Cx.scale 2400 s.solvedA ∧
        s.pubB = Cx.scale 2400 (Cx.mul s.solvedB r120) ∧
        s.pubC = Cx.scale 2400 (Cx.mul (Cx.mul s.solvedC r120) r120) := by
  intro solA solB solC horizon t va vb vc steps
  induction steps generalizing t va vb vc with
  | nil => simp [run2bus]
  | cons p rest ih =>
    obtain ⟨g, ra, rb, rc⟩ := p
    by_cases h : t < horizon
    · simp only [run2bus, if_pos h, List.forall_mem_cons]
      exact ⟨by simp, ih g _ _ _⟩
    · simp [run2bus, h]

/-- C5 witness: the per-phase rotation law instantiated on a concrete
one-step run with zero stub solvers. -/
theorem phase_rotation_applies_to_own_phase_witness :
    (⟨⟨0, 0⟩, ⟨0, 0⟩, ⟨0, 0⟩, ⟨0, 0⟩, ⟨0, 0⟩, ⟨0, 0⟩, ⟨0, 0⟩, ⟨0, 0⟩,
        ⟨0, 0⟩⟩ : PhaseStep).pubA =
      Cx.scale 2400 (⟨⟨0, 0⟩, ⟨0, 0⟩, ⟨0, 0⟩, ⟨0, 0⟩, ⟨0, 0⟩, ⟨0, 0⟩,
        ⟨0, 0⟩, ⟨0, 0⟩, ⟨0, 0⟩⟩ : PhaseStep).solvedA ∧
    (⟨⟨0, 0⟩, ⟨0, 0⟩, ⟨0, 0⟩, ⟨0, 0⟩, ⟨0, 0⟩, ⟨0, 0⟩, ⟨0, 0⟩, ⟨0, 0⟩,
        ⟨0, 0⟩⟩ : PhaseStep).pubB =
      Cx.scale 2400 (Cx.mul (⟨⟨0, 0⟩, ⟨0, 0⟩, ⟨0, 0⟩, ⟨0, 0⟩, ⟨0, 0⟩,
        ⟨0, 0⟩, ⟨0, 0⟩, ⟨0, 0⟩, ⟨0, 0⟩⟩ : PhaseStep).solvedB r120) ∧
    (⟨⟨0, 0⟩, ⟨0, 0⟩, ⟨0, 0⟩, ⟨0, 0⟩, ⟨0, 0⟩, ⟨0, 0⟩, ⟨0, 0⟩, ⟨0, 0⟩,
        ⟨0, 0⟩⟩ : PhaseStep).pubC =
      Cx.scale 2400 (Cx.mul (Cx.mul (⟨⟨0, 0⟩, ⟨0, 0⟩, ⟨0, 0⟩, ⟨0, 0⟩,
        ⟨0, 0⟩, ⟨0, 0⟩, ⟨0, 0⟩, ⟨0, 0⟩, ⟨0, 0⟩⟩ : PhaseStep).solvedC r120)
        r120) :=
  phase_rotation_applies_to_own_phase (fun _ _ => ⟨0, 0⟩) (fun _ _ => ⟨0, 0⟩)
    (fun _ _ => ⟨0, 0⟩) 10 0 ⟨1, 0⟩ ⟨1, 0⟩ ⟨1, 0⟩
    [(1, ⟨0, 0⟩, ⟨0, 0⟩, ⟨0, 0⟩)] _
    (by norm_num [run2bus, Cx.mul, Cx.scale, Cx.divScalar, r120])

/-! ## Exit codes (simple-cosim/gridpack_federate.cpp) -/

/-- The fallible message-substrate interface seen by the simple-cosim
federate; each HELICS call may raise an exception, modelled as the error
case of `Except` carrying the exception message. -/
structure GpfSubstrate where
  registerPub : String → Except String Unit
  registerSub : String → Except String Unit
  enterExecuting : Except String Unit
  requestTime : ℕ → ℚ → Except String ℚ
  getComplex : ℕ → Except String Cx
  publish : ℕ → String → Cx → Except String Unit
  finalizeFed : Except String Unit

/-- The simulation loop of gridpack_federate.cpp lines 36-55, iterated
from step `t` with `n` iterations remaining: request time `t+1`, read the
load current, publish the three scaled voltages; any failing call aborts
the whole body with its error. -/
def gpfLoopBody (sub : GpfSubstrate) : ℕ → ℕ → Except String Unit
  | _, 0 => Except.ok ()
  | t, n + 1 => do
    let _ ← sub.requestTime t ((t : ℚ) + 1)
    let s ← sub.getComplex t
    let _ ← sub.publish t "gridpack/voltage_A" (Cx.scale (11/10) s)
    let _ ← sub.publish t "gridpack/voltage_B" (Cx.scale (6/5) s)
    let _ ← sub.publish t "gridpack/voltage_C" (Cx.scale (13/10) s)
    gpfLoopBody sub (t + 1) n

/-- The try-block of gridpack_federate.cpp main (lines 10-59):
registrations, entering execution mode, the ten-iteration loop, and
finalization, each call fallible. -/
def gpfBody (sub : GpfSubstrate) : Except String Unit := do
  let _ ← sub.registerPub "gridpack/voltage_A"
  let _ ← sub.registerPub "gridpack/voltage_B"
  let _ ← sub.registerPub "gridpack/voltage_C"
  let _ ← sub.registerSub "load_meter/current"
  let _ ← sub.enterExecuting
  let _ ← gpfLoopBody sub 0 10
  sub.finalizeFed

/-- The process exit code of gridpack_federate.cpp main: 0 when the body
completes, -1 when a HELICS exception reaches the catch block
(lines 60-65). -/
def gpfMain (sub : GpfSubstrate) : Int :=
  match gpfBody sub with
  | Except.ok _ => 0
  | Except.error _ => -1

/-- C9: the exit code is 0 exactly when the federate body completes
normally, and a raised substrate exception makes the exit code -1
(hence non-zero). -/
theorem exit_code_zero_iff_normal (sub : GpfSubstrate) :
    (gpfMain sub = 0 ↔ gpfBody sub = Except.ok ()) ∧
    (∀ e, gpfBody sub = Except.error e → gpfMain sub = -1) := by
  constructor
  · cases h : gpfBody sub with
    | ok u => cases u; simp [gpfMain, h]
    | error e => simp [gpfMain, h]
  · intro e he
    simp [gpfMain, he]

/-- A substrate stub whose calls all succeed. -/
def okSub : GpfSubstrate :=
  ⟨fun _ => Except.ok (), fun _ => Except.ok (), Except.ok (),
   fun _ _ => Except.ok 0, fun _ => Except.ok ⟨0, 0⟩,
   fun _ _ _ => Except.ok (), Except.ok ()⟩

/-- A substrate stub that raises on entering execution mode. -/
def failSub : GpfSubstrate :=
  { okSub with enterExecuting := Except.error "sync failure" }

/-- C9 witness: the exit-code law instantiated on an all-succeeding stub
substrate and on a stub whose execution-mode call raises. -/
theorem exit_code_zero_iff_normal_witness :
    (gpfMain okSub = 0 ↔ gpfBody okSub = Except.ok ()) ∧
    gpfMain failSub = -1 :=
  ⟨(exit_code_zero_iff_normal okSub).1,
   (exit_code_zero_iff_normal failSub).2 "sync failure" rfl⟩

/-! ## Simple-cosim fixed ten-step run (gridpack_federate.cpp) -/

/-- One record of the simple-cosim loop: the requested time, the
subscribed load current, and the three published voltages. -/
structure GpfStep where
  requested : ℚ
  current : Cx
  vA : Cx
  vB : Cx
  vC : Cx
deriving DecidableEq, Repr

/-- The simple-cosim loop of gridpack_federate.cpp lines 36-55, iterated
from step `t` with `n` iterations remaining: the granted time returned by
`requestTime` is discarded (the source binds no variable to it), the load
current is read, and the three componentwise-scaled voltages are
published. -/
def gpfRunAux (inputs : ℕ → Cx) (grants : ℕ → ℚ) : ℕ → ℕ → List GpfStep
  | _, 0 => []
  | t, n + 1 =>
    ⟨(t : ℚ) + 1, inputs t, Cx.scale (11/10) (inputs t),
      Cx.scale (6/5) (inputs t), Cx.scale (13/10) (inputs t)⟩ ::
      gpfRunAux inputs grants (t + 1) n

/-- The full simple-cosim run: exactly ten iterations starting at
step 0 (the `for (int t = 0; t < 10; ++t)` loop). -/
def gpfRun (inputs : ℕ → Cx) (grants : ℕ → ℚ) : List GpfStep :=
  gpfRunAux inputs grants 0 10

/-- C10: the simple-cosim federate performs exactly ten iterations with
requested times 1 through 10; each iteration publishes the three fixed
componentwise scalings 1.1, 1.2, 1.3 of that iteration's subscribed load
current; and the run does not depend on the granted times returned by the
substrate (the right-hand side is free of `grants`). -/
theorem simple_cosim_fixed_run (inputs : ℕ → Cx) (grants : ℕ → ℚ) :
    gpfRun inputs grants =
      [⟨1, inputs 0, Cx.scale (11/10) (inputs 0), Cx.scale (6/5) (inputs 0),
          Cx.scale (13/10) (inputs 0)⟩,
       ⟨2, inputs 1, Cx.scale (11/10) (inputs 1), Cx.scale (6/5) (inputs 1),
          Cx.scale (13/10) (inputs 1)⟩,
       ⟨3, inputs 2, Cx.scale (11/10) (inputs 2), Cx.scale (6/5) (inputs 2),
          Cx.scale (13/10) (inputs 2)⟩,
       ⟨4, inputs 3, Cx.scale (11/10) (inputs 3), Cx.scale (6/5) (inputs 3),
          Cx.scale (13/10) (inputs 3)⟩,
       ⟨5, inputs 4, Cx.scale (11/10) (inputs 4), Cx.scale (6/5) (inputs 4),
          Cx.scale (13/10) (inputs 4)⟩,
       ⟨6, inputs 5, Cx.scale (11/10) (inputs 5), Cx.scale (6/5) (inputs 5),
          Cx.scale (13/10) (inputs 5)⟩,
       ⟨7, inputs 6, Cx.scale (11/10) (inputs 6), Cx.scale (6/5) (inputs 6),
          Cx.scale (13/10) (inputs 6)⟩,
       ⟨8, inputs 7, Cx.scale (11/10) (inputs 7), Cx.scale (6/5) (inputs 7),
          Cx.scale (13/10) (inputs 7)⟩,
       ⟨9, inputs 8, Cx.scale (11/10) (inputs 8), Cx.scale (6/5) (inputs 8),
          Cx.scale (13/10) (inputs 8)⟩,
       ⟨10, inputs 9, Cx.scale (11/10) (inputs 9), Cx.scale (6/5) (inputs 9),
          Cx.scale (13/10) (inputs 9)⟩] := by
  norm_num [gpfRun, gpfRunAux]

end Cosim
